import Mathlib

/-!
# Verification of the storage-format decoding pipeline

Shallow embedding of the read-only SQLite file decoder (varint/record codec,
B-tree page model, schema catalog, pager, query executor) and proofs of the
spec's claims about it.

Conventions of the embedding:
* Bytes are `Nat`s; the value of a byte `b` is always taken through `b % 256`
  (resp. `b % 128` for the low 7 bits), which agrees with the Rust `u8`
  semantics on every in-range byte.
* Machine-integer overflow is made explicit: the `u64` accumulator of the
  varint decoder reduces modulo `2 ^ 64` exactly where the Rust shifts would
  discard high bits.
* Fallible Rust functions returning `anyhow::Result` become `Except Err`,
  where `Err` is one constructor per distinct `bail!` site (anyhow errors are
  distinguished only by their message text).
* Rust panics (`todo!()` bodies, out-of-bounds slice/index, `debug_assert!`)
  are modelled as dedicated `Err` values, so that "the code fails by
  panicking" and "the code returns an error" stay distinguishable.
-/

/-- Error kinds. One constructor per `bail!`/panic site of the sources.
`recordHeaderInconsistent` is the error kind the spec's taxonomy announces
for a record header whose serial-type varints overshoot the header-size
boundary; no source path produces it (see claim C8).
`outOfFuel` is an artifact of the fuel-based loop encoding and is
unreachable for the fuel the callers supply. -/
inductive Err where
  | emptyVarintBuffer
  | varintTooLong
  | incompleteVarint
  | reservedSerialType
  | invalidSerialType (code : Nat)
  | recordHeaderInconsistent
  | outOfFuel
  | panicSliceOutOfBounds
  | panicIndexOutOfBounds
  | panicTodo
  | headerTooShort
  | interiorHeaderTooShort
  | invalidPageType (b : Nat)
  | cellPointerOutOfBounds
  | notLeafTablePage
  | pageZeroNotLeafTable
  | pageZeroHasRightmostPointer
  | invalidCellContentStart
  | schemaColumnCountNot5
  | notTextColumn
  | columnIndexOutOfBounds
  | columnDataBeyondBuffer
  | invalidUtf8
  | unsupportedIntegerSize
  | rootpageNotInteger
  | invalidPageNumber
  | bufferSizeMismatch
  | debugAssertPageOutOfBounds
  | unexpectedEndOfFile
  | tableNotFound
  | expectedTablePage
  | expectedLeafTablePage
  | columnPositionOutOfBounds
  deriving DecidableEq

deriving instance DecidableEq for Except

/-! ## Varint / record codec (src/storage/btree.rs) -/

/-- Column type decoded from a serial-type code
(`ColumnType` in src/storage/btree.rs). -/
inductive ColumnType where
  | Null
  | Integer (size : Nat)
  | Real
  | ConstantZero
  | ConstantOne
  | Text (length : Nat)
  | Blob (length : Nat)
  deriving DecidableEq

/-- `ColumnType::from_serial_type` (src/storage/btree.rs:16-39).
The Rust `match` on a `u64` is rendered as the equivalent chain of tests,
in source order; the final arm is unreachable (every `u64` is covered). -/
def ColumnType.from_serial_type (code : Nat) : Except Err ColumnType :=
  if code = 0 then .ok .Null
  else if code = 1 then .ok (.Integer 1)
  else if code = 2 then .ok (.Integer 2)
  else if code = 3 then .ok (.Integer 3)
  else if code = 4 then .ok (.Integer 4)
  else if code = 5 then .ok (.Integer 6)
  else if code = 6 then .ok (.Integer 8)
  else if code = 7 then .ok .Real
  else if code = 8 then .ok .ConstantZero
  else if code = 9 then .ok .ConstantOne
  else if code = 10 ∨ code = 11 then .error .reservedSerialType
  else if 12 ≤ code ∧ code % 2 = 0 then .ok (.Blob ((code - 12) / 2))
  else if 13 ≤ code ∧ code % 2 = 1 then .ok (.Text ((code - 13) / 2))
  else .error (.invalidSerialType code)

/-- `ColumnType::data_size` (src/storage/btree.rs:42-49). -/
def ColumnType.data_size : ColumnType → Nat
  | .Null | .ConstantZero | .ConstantOne => 0
  | .Integer size => size
  | .Real => 8
  | .Text length => length
  | .Blob length => length

/-- The loop of `read_varint` (src/storage/btree.rs:363-383).
`i` is the 0-based byte index, `result` the `u64` accumulator.
For bytes 0-7: `result = (result << 7) | (byte & 0x7F)`, stop when the
continuation bit (bit 7) is clear; byte 8 contributes all 8 bits.
`b % 128` is `byte & 0x7F`; `b % 256 < 128` is `(byte & 0x80) == 0`;
the reductions `% 2 ^ 64` are the `u64` wrap of the shifts. -/
def readVarintLoop : List Nat → Nat → Nat → Except Err (Nat × Nat)
  | [], _, _ => .error .incompleteVarint
  | b :: rest, i, result =>
    if 9 ≤ i then .error .varintTooLong
    else if i < 8 then
      let result2 := (result * 128 + b % 128) % 2 ^ 64
      if b % 256 < 128 then .ok (result2, i + 1)
      else readVarintLoop rest (i + 1) result2
    else .ok ((result * 256 + b % 256) % 2 ^ 64, i + 1)

/-- `read_varint` (src/storage/btree.rs:355-386): returns
`(value, bytes_consumed)`. -/
def read_varint (buffer : List Nat) : Except Err (Nat × Nat) :=
  if buffer.isEmpty then .error .emptyVarintBuffer
  else readVarintLoop buffer 0 0

/-- Serial-type loop of `RecordHeader::parse` (src/storage/btree.rs:70-74):
`while offset < header_end` read a serial-type varint from
`&buffer[offset..]`, decode it, append, advance. The first parameter of the
recursion is fuel; the callers pass `header_end`, which bounds the number of
iterations (each one consumes at least one byte), so `.outOfFuel` is
unreachable. The `buffer.length < offset` test is the Rust slice-bounds
panic of `&buffer[offset..]`. -/
def parseSerialTypes (buffer : List Nat) (header_end : Nat) :
    Nat → Nat → Except Err (List ColumnType)
  | 0, offset => if offset < header_end then .error .outOfFuel else .ok []
  | fuel + 1, offset =>
    if offset < header_end then
      if buffer.length < offset then .error .panicSliceOutOfBounds
      else
        match read_varint (buffer.drop offset) with
        | .error e => .error e
        | .ok (serial_type, bytes_consumed) =>
          match ColumnType.from_serial_type serial_type with
          | .error e => .error e
          | .ok t =>
            match parseSerialTypes buffer header_end fuel (offset + bytes_consumed) with
            | .error e => .error e
            | .ok rest => .ok (t :: rest)
    else .ok []

/-- `RecordHeader` (src/storage/btree.rs:52-56). -/
structure RecordHeader where
  column_types : List ColumnType
  data_start_offset : Nat
  deriving DecidableEq

/-- `RecordHeader::column_count` (src/storage/btree.rs:82-84). -/
def RecordHeader.column_count (rh : RecordHeader) : Nat :=
  rh.column_types.length

/-- `RecordHeader::parse` (src/storage/btree.rs:59-80): a leading varint
`header_size` counted from `record_start` inclusive, then serial-type
varints while `offset < header_end`; `data_start_offset := header_end`
unconditionally — there is no check that the varints land exactly on the
boundary. -/
def RecordHeader.parse (buffer : List Nat) (record_start : Nat) :
    Except Err RecordHeader :=
  if buffer.length < record_start then .error .panicSliceOutOfBounds
  else
    match read_varint (buffer.drop record_start) with
    | .error e => .error e
    | .ok (header_size, bytes_consumed) =>
      match parseSerialTypes buffer (record_start + header_size)
          (record_start + header_size) (record_start + bytes_consumed) with
      | .error e => .error e
      | .ok column_types => .ok ⟨column_types, record_start + header_size⟩

/-! ## Page model (src/storage/btree.rs, src/storage/page.rs) -/

/-- `PageType` (src/storage/btree.rs:87-93). -/
inductive PageType where
  | LeafIndex
  | LeafTable
  | InteriorIndex
  | InteriorTable
  deriving DecidableEq

/-- `PageType::from_byte` (src/storage/btree.rs:96-105). -/
def PageType.from_byte (byte : Nat) : Except Err PageType :=
  if byte = 0x0a then .ok .LeafIndex
  else if byte = 0x0d then .ok .LeafTable
  else if byte = 0x02 then .ok .InteriorIndex
  else if byte = 0x05 then .ok .InteriorTable
  else .error (.invalidPageType byte)

/-- `BTreePageHeader` (src/storage/btree.rs:108-117). -/
structure BTreePageHeader where
  page_type : PageType
  first_freeblock : Nat
  cell_count : Nat
  cell_content_start : Nat
  fragmented_bytes : Nat
  rightmost_pointer : Option Nat
  cell_pointers : List Nat
  deriving DecidableEq

/-- Cell-pointer extraction loop of `BTreePageHeader::parse`
(src/storage/btree.rs:144-152): for `i` in `0..cell_count`, the 2-byte slot
at `header_size + i * 2` must satisfy `offset + 1 < buffer.len()`. -/
def readCellPointers (buffer : List Nat) (header_size : Nat) :
    Nat → Nat → Except Err (List Nat)
  | _, 0 => .ok []
  | i, count + 1 =>
    let offset := header_size + i * 2
    if buffer.length ≤ offset + 1 then .error .cellPointerOutOfBounds
    else
      match readCellPointers buffer header_size (i + 1) count with
      | .error e => .error e
      | .ok rest => .ok ((buffer.getD offset 0 * 256 + buffer.getD (offset + 1) 0) :: rest)

/-- `BTreePageHeader::parse` (src/storage/btree.rs:120-163). All multi-byte
fields are big-endian. -/
def BTreePageHeader.parse (buffer : List Nat) : Except Err BTreePageHeader :=
  if buffer.length < 8 then .error .headerTooShort
  else
    match PageType.from_byte (buffer.getD 0 0) with
    | .error e => .error e
    | .ok page_type =>
      let first_freeblock := buffer.getD 1 0 * 256 + buffer.getD 2 0
      let cell_count := buffer.getD 3 0 * 256 + buffer.getD 4 0
      let cell_content_start := buffer.getD 5 0 * 256 + buffer.getD 6 0
      let fragmented_bytes := buffer.getD 7 0
      match page_type with
      | .InteriorIndex | .InteriorTable =>
        if buffer.length < 12 then .error .interiorHeaderTooShort
        else
          let pointer := ((buffer.getD 8 0 * 256 + buffer.getD 9 0) * 256
              + buffer.getD 10 0) * 256 + buffer.getD 11 0
          match readCellPointers buffer 12 0 cell_count with
          | .error e => .error e
          | .ok cell_pointers =>
            .ok ⟨page_type, first_freeblock, cell_count, cell_content_start,
                 fragmented_bytes, some pointer, cell_pointers⟩
      | _ =>
          match readCellPointers buffer 8 0 cell_count with
          | .error e => .error e
          | .ok cell_pointers =>
            .ok ⟨page_type, first_freeblock, cell_count, cell_content_start,
                 fragmented_bytes, none, cell_pointers⟩

/-- `LeafIndexPage` (src/storage/page.rs:101-109). -/
structure LeafIndexPage where
  first_freeblock : Nat
  cell_count : Nat
  cell_content_start : Nat
  fragmented_bytes : Nat
  cell_pointers : List Nat
  deriving DecidableEq

/-- `LeafTablePage` (src/storage/page.rs:111-118). -/
structure LeafTablePage where
  first_freeblock : Nat
  cell_count : Nat
  cell_content_start : Nat
  fragmented_bytes : Nat
  cell_pointers : List Nat
  deriving DecidableEq

/-- `InteriorIndexPage` (src/storage/page.rs:120-129). -/
structure InteriorIndexPage where
  first_freeblock : Nat
  cell_count : Nat
  cell_content_start : Nat
  fragmented_bytes : Nat
  rightmost_pointer : Nat
  cell_pointers : List Nat
  deriving DecidableEq

/-- `InteriorTablePage` (src/storage/page.rs:131-140). -/
structure InteriorTablePage where
  first_freeblock : Nat
  cell_count : Nat
  cell_content_start : Nat
  fragmented_bytes : Nat
  rightmost_pointer : Nat
  cell_pointers : List Nat
  deriving DecidableEq

/-- `LeafIndexPage::parse` (src/storage/page.rs:142-147) is `todo!()`:
it panics on every input. -/
def LeafIndexPage.parse (_buffer : List Nat) : Except Err LeafIndexPage :=
  .error .panicTodo

/-- `LeafTablePage::parse` (src/storage/page.rs:149-166). -/
def LeafTablePage.parse (buffer : List Nat) : Except Err LeafTablePage :=
  match BTreePageHeader.parse buffer with
  | .error e => .error e
  | .ok header =>
    if header.page_type ≠ .LeafTable then .error .notLeafTablePage
    else .ok ⟨header.first_freeblock, header.cell_count, header.cell_content_start,
              header.fragmented_bytes, header.cell_pointers⟩

/-- `InteriorIndexPage::parse` (src/storage/page.rs:168-173) is `todo!()`:
it panics on every input. -/
def InteriorIndexPage.parse (_buffer : List Nat) : Except Err InteriorIndexPage :=
  .error .panicTodo

/-- `InteriorTablePage::parse` (src/storage/page.rs:175-180) is `todo!()`:
it panics on every input. -/
def InteriorTablePage.parse (_buffer : List Nat) : Except Err InteriorTablePage :=
  .error .panicTodo

/-- `BTreePage` (src/storage/btree.rs:166-172). -/
inductive BTreePage where
  | LeafIndex (p : LeafIndexPage)
  | LeafTable (p : LeafTablePage)
  | InteriorIndex (p : InteriorIndexPage)
  | InteriorTable (p : InteriorTablePage)
  deriving DecidableEq

/-- `BTreePage::parse` (src/storage/btree.rs:175-186): dispatch on the first
byte, delegating to the per-kind parser. -/
def BTreePage.parse (buffer : List Nat) : Except Err BTreePage :=
  if buffer.length < 8 then .error .headerTooShort
  else
    match PageType.from_byte (buffer.getD 0 0) with
    | .error e => .error e
    | .ok .LeafIndex => (LeafIndexPage.parse buffer).map .LeafIndex
    | .ok .LeafTable => (LeafTablePage.parse buffer).map .LeafTable
    | .ok .InteriorIndex => (InteriorIndexPage.parse buffer).map .InteriorIndex
    | .ok .InteriorTable => (InteriorTablePage.parse buffer).map .InteriorTable

/-- `BTreePage::cell_count` (src/storage/btree.rs:188-195). -/
def BTreePage.cell_count : BTreePage → Nat
  | .LeafIndex p => p.cell_count
  | .LeafTable p => p.cell_count
  | .InteriorIndex p => p.cell_count
  | .InteriorTable p => p.cell_count

/-- `BTreePage::is_leaf` (src/storage/btree.rs:197-199). -/
def BTreePage.is_leaf : BTreePage → Bool
  | .LeafIndex _ | .LeafTable _ => true
  | _ => false

/-- `BTreePage::is_table_page` (src/storage/btree.rs:201-203). -/
def BTreePage.is_table_page : BTreePage → Bool
  | .LeafTable _ | .InteriorTable _ => true
  | _ => false

/-! ## Cells and schema records (src/storage/btree.rs) -/

/-- `b` is a UTF-8 continuation byte (`0x80..=0xBF`). -/
def utf8Cont (b : Nat) : Bool :=
  0x80 ≤ b % 256 && b % 256 ≤ 0xBF

/-- UTF-8 validity of a byte sequence, per RFC 3629 — the check performed by
Rust's `String::from_utf8` inside `LeafTableCell::text_column`
(src/storage/btree.rs:271). -/
def validUtf8 : List Nat → Bool
  | [] => true
  | b :: rest =>
    let b := b % 256
    if b < 0x80 then validUtf8 rest
    else if b < 0xC2 then false
    else if b < 0xE0 then
      match rest with
      | c1 :: r => utf8Cont c1 && validUtf8 r
      | _ => false
    else if b = 0xE0 then
      match rest with
      | c1 :: c2 :: r => (0xA0 ≤ c1 % 256 && c1 % 256 ≤ 0xBF) && utf8Cont c2 && validUtf8 r
      | _ => false
    else if b = 0xED then
      match rest with
      | c1 :: c2 :: r => (0x80 ≤ c1 % 256 && c1 % 256 ≤ 0x9F) && utf8Cont c2 && validUtf8 r
      | _ => false
    else if b < 0xF0 then
      match rest with
      | c1 :: c2 :: r => utf8Cont c1 && utf8Cont c2 && validUtf8 r
      | _ => false
    else if b = 0xF0 then
      match rest with
      | c1 :: c2 :: c3 :: r =>
        (0x90 ≤ c1 % 256 && c1 % 256 ≤ 0xBF) && utf8Cont c2 && utf8Cont c3 && validUtf8 r
      | _ => false
    else if b < 0xF4 then
      match rest with
      | c1 :: c2 :: c3 :: r => utf8Cont c1 && utf8Cont c2 && utf8Cont c3 && validUtf8 r
      | _ => false
    else if b = 0xF4 then
      match rest with
      | c1 :: c2 :: c3 :: r =>
        (0x80 ≤ c1 % 256 && c1 % 256 ≤ 0x8F) && utf8Cont c2 && utf8Cont c3 && validUtf8 r
      | _ => false
    else false

/-- `LeafTableCell` (src/storage/btree.rs:216-220). The row id is parsed but
discarded by the source (`// row_id: i64, ignored for now`). -/
structure LeafTableCell where
  record_header : RecordHeader
  deriving DecidableEq

/-- `LeafTableCell::parse` (src/storage/btree.rs:223-238): payload-size
varint, row-id varint, then the record header at the following offset.
The `buffer.length < _` tests are the Rust slice-bounds panics of
`&buffer[offset..]`. -/
def LeafTableCell.parse (buffer : List Nat) (cell_offset : Nat) :
    Except Err LeafTableCell :=
  if buffer.length < cell_offset then .error .panicSliceOutOfBounds
  else
    match read_varint (buffer.drop cell_offset) with
    | .error e => .error e
    | .ok (_payload_size, n1) =>
      let offset := cell_offset + n1
      if buffer.length < offset then .error .panicSliceOutOfBounds
      else
        match read_varint (buffer.drop offset) with
        | .error e => .error e
        | .ok (_rowid, n2) =>
          match RecordHeader.parse buffer (offset + n2) with
          | .error e => .error e
          | .ok record_header => .ok ⟨record_header⟩

/-- `LeafTableCell::column_data` (src/storage/btree.rs:241-262). The Rust
loop `for i in 0..column_index { data_offset += data_size }` is the sum of
`data_size` over the first `column_index` column types. -/
def LeafTableCell.column_data (cell : LeafTableCell) (buffer : List Nat)
    (column_index : Nat) : Except Err (List Nat) :=
  if cell.record_header.column_types.length ≤ column_index then
    .error .columnIndexOutOfBounds
  else
    let data_offset := cell.record_header.data_start_offset +
      ((cell.record_header.column_types.take column_index).map ColumnType.data_size).sum
    let data_size := (cell.record_header.column_types.getD column_index .Null).data_size
    if buffer.length < data_offset + data_size then .error .columnDataBeyondBuffer
    else .ok ((buffer.drop data_offset).take data_size)

/-- `LeafTableCell::text_column` (src/storage/btree.rs:265-275). The direct
index `column_types[column_index]` panics when out of bounds (every caller
guards it); only `Text` columns are accepted — any other column type is an
error. A decoded string is represented by its UTF-8 bytes. -/
def LeafTableCell.text_column (cell : LeafTableCell) (buffer : List Nat)
    (column_index : Nat) : Except Err (List Nat) :=
  if cell.record_header.column_types.length ≤ column_index then
    .error .panicIndexOutOfBounds
  else
    match cell.record_header.column_types.getD column_index .Null with
    | .Text _ =>
      match cell.column_data buffer column_index with
      | .error e => .error e
      | .ok data => if validUtf8 data then .ok data else .error .invalidUtf8
    | _ => .error .notTextColumn

/-- Big-endian value of a byte list (each byte through `% 256`). -/
def beNat (bytes : List Nat) : Nat :=
  bytes.foldl (fun a b => a * 256 + b % 256) 0

/-- Two's-complement reinterpretation of the big-endian value of `bytes` at
width `w` bytes. `SchemaMasterRecord::from_cell` assembles widths 3 and 6 by
zero-filling the high bytes and OR-ing in `0xFF...` high bits when the sign
bit of the original width is set (src/storage/btree.rs:309-333), which is
exactly this reinterpretation; widths 1, 2, 4 and 8 use the native
`iN::from_be_bytes` casts. -/
def sextBE (w : Nat) (bytes : List Nat) : Int :=
  if 2 ^ (8 * w - 1) ≤ beNat bytes then (beNat bytes : Int) - 2 ^ (8 * w)
  else (beNat bytes : Int)

/-- `SchemaMasterRecord` (src/storage/btree.rs:278-285). String fields are
represented by their UTF-8 bytes. -/
structure SchemaMasterRecord where
  type_ : List Nat
  name : List Nat
  tbl_name : List Nat
  rootpage : Int
  sql : List Nat
  deriving DecidableEq

/-- `SchemaMasterRecord::from_cell` (src/storage/btree.rs:288-351). -/
def SchemaMasterRecord.from_cell (buffer : List Nat) (cell : LeafTableCell) :
    Except Err SchemaMasterRecord :=
  if cell.record_header.column_count ≠ 5 then .error .schemaColumnCountNot5
  else
    match cell.text_column buffer 0 with
    | .error e => .error e
    | .ok type_ =>
      match cell.text_column buffer 1 with
      | .error e => .error e
      | .ok name =>
        match cell.text_column buffer 2 with
        | .error e => .error e
        | .ok tbl_name =>
          let rootpageRes : Except Err Int :=
            match cell.record_header.column_types.getD 3 .Null with
            | .Integer size =>
              match cell.column_data buffer 3 with
              | .error e => .error e
              | .ok data =>
                match size with
                | 0 => .ok 0
                | 1 => .ok (sextBE 1 data)
                | 2 => .ok (sextBE 2 data)
                | 3 => .ok (sextBE 3 data)
                | 4 => .ok (sextBE 4 data)
                | 6 => .ok (sextBE 6 data)
                | 8 => .ok (sextBE 8 data)
                | _ => .error .unsupportedIntegerSize
            | _ => .error .rootpageNotInteger
          match rootpageRes with
          | .error e => .error e
          | .ok rootpage =>
            match cell.text_column buffer 4 with
            | .error e => .error e
            | .ok sql => .ok ⟨type_, name, tbl_name, rootpage, sql⟩

/-! ## Schema catalog root page (src/storage/page.rs) -/

/-- `DATABASE_HEADER_SIZE` (src/lib.rs:12). -/
def DATABASE_HEADER_SIZE : Nat := 100

/-- UTF-8 bytes of the catalog entry type string compared by
`RootPage::find_table` and `RootPage::table_names` (the five bytes of
the type name that marks a table entry). -/
def tableTypeBytes : List Nat := [116, 97, 98, 108, 101]

/-- `RootPage` (src/storage/page.rs:7-15). -/
structure RootPage where
  first_freeblock : Nat
  cell_count : Nat
  cell_content_start : Nat
  fragmented_bytes : Nat
  cell_pointers : List Nat
  buffer : List Nat
  deriving DecidableEq

/-- `RootPage::init` (src/storage/page.rs:18-58): requires a leaf-table
page, no rightmost pointer, `cell_content_start ≥ 8 + cell_count * 2`, and
adjusts every cell pointer by `saturating_sub(DATABASE_HEADER_SIZE)` —
which on `Nat` is exactly truncated subtraction. -/
def RootPage.init (buffer : List Nat) : Except Err RootPage :=
  match BTreePageHeader.parse buffer with
  | .error e => .error e
  | .ok header =>
    if header.page_type ≠ .LeafTable then .error .pageZeroNotLeafTable
    else if header.rightmost_pointer ≠ none then .error .pageZeroHasRightmostPointer
    else if header.cell_content_start < 8 + header.cell_count * 2 then
      .error .invalidCellContentStart
    else
      .ok { first_freeblock := header.first_freeblock
            cell_count := header.cell_count
            cell_content_start := header.cell_content_start
            fragmented_bytes := header.fragmented_bytes
            cell_pointers := header.cell_pointers.map
              (fun offset => offset - DATABASE_HEADER_SIZE)
            buffer := buffer }

/-- `RootPage::table_count` (src/storage/page.rs:61-63). -/
def RootPage.table_count (rp : RootPage) : Nat :=
  rp.cell_count

/-- `RootPage::cells` (src/storage/page.rs:66-68). -/
def RootPage.cells (rp : RootPage) : List Nat :=
  rp.cell_pointers

/-- Loop of `RootPage::table_names` (src/storage/page.rs:71-85): decode each
cell in on-disk order, keep the names of the entries whose type is
the table type, and propagate the first decode error. -/
def tableNamesLoop (buffer : List Nat) : List Nat → Except Err (List (List Nat))
  | [] => .ok []
  | cell_offset :: rest =>
    match LeafTableCell.parse buffer cell_offset with
    | .error e => .error e
    | .ok cell =>
      match SchemaMasterRecord.from_cell buffer cell with
      | .error e => .error e
      | .ok schema_record =>
        if schema_record.type_ = tableTypeBytes then
          match tableNamesLoop buffer rest with
          | .error e => .error e
          | .ok names => .ok (schema_record.name :: names)
        else tableNamesLoop buffer rest

/-- `RootPage::table_names` (src/storage/page.rs:71-85). -/
def RootPage.table_names (rp : RootPage) : Except Err (List (List Nat)) :=
  tableNamesLoop rp.buffer rp.cell_pointers

/-- Loop of `RootPage::find_table` (src/storage/page.rs:88-98): decode each
cell in on-disk order, return the first record whose type is the table type
and whose name equals the argument exactly; propagate any decode error. -/
def findTableLoop (buffer : List Nat) (table_name : List Nat) :
    List Nat → Except Err (Option SchemaMasterRecord)
  | [] => .ok none
  | cell_offset :: rest =>
    match LeafTableCell.parse buffer cell_offset with
    | .error e => .error e
    | .ok cell =>
      match SchemaMasterRecord.from_cell buffer cell with
      | .error e => .error e
      | .ok schema_record =>
        if schema_record.type_ = tableTypeBytes ∧ schema_record.name = table_name then
          .ok (some schema_record)
        else findTableLoop buffer table_name rest

/-- `RootPage::find_table` (src/storage/page.rs:88-98). -/
def RootPage.find_table (rp : RootPage) (table_name : List Nat) :
    Except Err (Option SchemaMasterRecord) :=
  findTableLoop rp.buffer table_name rp.cell_pointers

/-! ## Pager (src/pager.rs) -/

/-- The sanity ceiling `100 << 20` bytes (100 MiB) of
`Pager::guard_outbound_page` (src/pager.rs:33-41). -/
def PAGE_LIMIT : Nat := 104857600

/-- `PageNumber::new` (src/pager.rs:7-13): 1-based, rejects 0. -/
def PageNumber.new (value : Nat) : Except Err Nat :=
  if 0 < value then .ok value else .error .invalidPageNumber

/-- `Pager::read` (src/pager.rs:45-61). The backing input is a byte list;
the returned list is the buffer contents after the exact-length read at
offset `(page_number - 1) * page_size`. `guard_outbound_page` is a
`debug_assert!` that `page_size * page_number < PAGE_LIMIT`; it runs before
the buffer-length check and is modelled as a failing check (debug-build
semantics — in release builds it vanishes). A short read is
`read_exact`'s `UnexpectedEof`. -/
def Pager.read (page_size : Nat) (file : List Nat) (page_number : Nat)
    (buf_len : Nat) : Except Err (List Nat) :=
  if ¬ page_size * page_number < PAGE_LIMIT then .error .debugAssertPageOutOfBounds
  else if buf_len ≠ page_size then .error .bufferSizeMismatch
  else
    let file_offset := (page_number - 1) * page_size
    if file.length < file_offset + page_size then .error .unexpectedEndOfFile
    else .ok ((file.drop file_offset).take page_size)

/-! ## Query executor (src/query/executor.rs) -/

/-- `SqlType` (src/schema/parser.rs:12-19). -/
inductive SqlType where
  | Integer
  | Text
  | Real
  | Blob
  | Numeric
  deriving DecidableEq

/-- `ColumnDefinition` (src/schema/parser.rs:35-41). The name is UTF-8
bytes. -/
structure ColumnDefinition where
  name : List Nat
  sql_type : SqlType
  position : Nat
  is_primary_key : Bool
  deriving DecidableEq

/-- `QueryRow` (src/query/executor.rs:13-16); stringified values are UTF-8
bytes. -/
structure QueryRow where
  values : List (List Nat)
  deriving DecidableEq

/-- `QueryResult` (src/query/executor.rs:18-21). -/
structure QueryResult where
  rows : List QueryRow
  deriving DecidableEq

/-- Decimal digit bytes of `n` (the `to_string` rendering of an unsigned
integer). The first parameter is fuel; `decimalString` supplies `n`, which
bounds the number of divisions by 10. -/
def natDecimalDigits : Nat → Nat → List Nat
  | 0, n => [48 + n % 10]
  | fuel + 1, n => if n < 10 then [48 + n] else natDecimalDigits fuel (n / 10) ++ [48 + n % 10]

/-- UTF-8 bytes of the base-10 rendering of `n`. -/
def decimalString (n : Nat) : List Nat :=
  natDecimalDigits n n

/-- `QueryResult::single_value` (src/query/executor.rs:28-32). -/
def QueryResult.single_value (value : List Nat) : QueryResult :=
  { rows := [{ values := [value] }] }

/-- `QueryResult::count` (src/query/executor.rs:34-36): the count rendered
as its base-10 string. -/
def QueryResult.count (count : Nat) : QueryResult :=
  QueryResult.single_value (decimalString count)

/-- Per-row inner loop of `QueryExecutor::execute_projection`
(src/query/executor.rs:158-168): for each requested column definition,
bounds-check its position against the record's column count, then extract
it with `text_column` (the source calls it with the definition's position;
as written the call passes the definition itself where an index is
expected, which does not type-check — the guard fixes the intended index). -/
def rowValues (buffer : List Nat) (cell : LeafTableCell) :
    List ColumnDefinition → Except Err (List (List Nat))
  | [] => .ok []
  | column_def :: rest =>
    if column_def.position < cell.record_header.column_count then
      match cell.text_column buffer column_def.position with
      | .error e => .error e
      | .ok v =>
        match rowValues buffer cell rest with
        | .error e => .error e
        | .ok vs => .ok (v :: vs)
    else .error .columnPositionOutOfBounds

/-- Per-cell outer loop of `QueryExecutor::execute_projection`
(src/query/executor.rs:153-172): one row per cell pointer, in the
pointer array's order, short-circuiting on the first error. -/
def projRows (buffer : List Nat) (column_definitions : List ColumnDefinition) :
    List Nat → Except Err (List QueryRow)
  | [] => .ok []
  | cell_offset :: rest =>
    match LeafTableCell.parse buffer cell_offset with
    | .error e => .error e
    | .ok cell =>
      match rowValues buffer cell column_definitions with
      | .error e => .error e
      | .ok values =>
        match projRows buffer column_definitions rest with
        | .error e => .error e
        | .ok rows => .ok ({ values := values } :: rows)

/-- `QueryExecutor::execute_projection` (src/query/executor.rs:144-178):
only a leaf-table page is accepted; its cells become rows in cell-pointer
order. -/
def QueryExecutor.execute_projection (table_page : BTreePage)
    (page_buffer : List Nat) (column_definitions : List ColumnDefinition) :
    Except Err QueryResult :=
  match table_page with
  | .LeafTable leaf_page =>
    match projRows page_buffer column_definitions leaf_page.cell_pointers with
    | .error e => .error e
    | .ok rows => .ok { rows := rows }
  | _ => .error .expectedLeafTablePage

/-- The session state the executor runs against (`Sqlite` in src/db.rs:
pager with its page size, the backing file bytes, and the once-loaded
schema catalog page). -/
structure SqliteModel where
  page_size : Nat
  file : List Nat
  schema_page : RootPage

/-- The `as u64` cast of the stored `i64` root page number
(src/query/executor.rs:87): two's-complement wrap into `[0, 2^64)`. -/
def i64ToU64 (i : Int) : Nat :=
  (i % (2 : Int) ^ 64).toNat

/-- Modelled from the spec: `Sqlite::load_page` is absent from the sources
(only its caller `execute_count` remains). Per §2's control flow — "Query
Executor looks up the table's root page number … Pager fetches that page →
Page Model decodes it" — it validates the page number, reads that page into
a fresh `page_size` buffer via the Pager, and parses it as a B-tree page. -/
def SqliteModel.load_page (db : SqliteModel) (page_number : Nat) :
    Except Err BTreePage :=
  match PageNumber.new page_number with
  | .error e => .error e
  | .ok pn =>
    match Pager.read db.page_size db.file pn db.page_size with
    | .error e => .error e
    | .ok buf => BTreePage.parse buf

/-- `QueryExecutor::execute_count` (src/query/executor.rs:77-98): resolve
the table in the schema catalog, load its root page, require a table-kind
page, and report that one page's cell count. -/
def QueryExecutor.execute_count (db : SqliteModel) (table_name : List Nat) :
    Except Err QueryResult :=
  match db.schema_page.find_table table_name with
  | .error e => .error e
  | .ok none => .error .tableNotFound
  | .ok (some schema_record) =>
    match db.load_page (i64ToU64 schema_record.rootpage) with
    | .error e => .error e
    | .ok table_page =>
      if table_page.is_table_page then .ok (QueryResult.count table_page.cell_count)
      else .error .expectedTablePage

/-! ## Spec-side reference definitions

These definitions follow the words of the specification (not the sources);
each is compared against the embedded source functions in the theorems
below. -/

/-- Continuation bytes of the reference varint encoder: the base-128 digits
of `x`, big-endian, each with the continuation bit (0x80) set; empty when
`x = 0`. -/
def enc7cont (x : Nat) : List Nat :=
  if h : x = 0 then []
  else enc7cont (x / 128) ++ [x % 128 + 128]
termination_by x
decreasing_by exact Nat.div_lt_self (Nat.pos_of_ne_zero h) (by omega)

/-- Reference SQLite varint encoder (the byte sequence `sqlite3PutVarint`
produces, as described in spec §4.2): values below `2 ^ 56` become a
minimal big-endian chain of 7-bit groups with the continuation bit set on
all but the last byte; larger values become eight 7-bit groups of
`v >> 8` (all with the continuation bit set) followed by the low 8 bits of
`v` as a ninth byte. -/
def varintEncode (v : Nat) : List Nat :=
  if v < 2 ^ 56 then enc7cont (v / 128) ++ [v % 128]
  else ((List.range 8).map fun j => v / 256 / 128 ^ (7 - j) % 128 + 128) ++ [v % 256]

/-- The documented serial-type width table of spec §4.2, for every code
outside the reserved pair {10, 11}. -/
def specSerialWidth (code : Nat) : Nat :=
  if code = 0 then 0
  else if code ≤ 4 then code
  else if code = 5 then 6
  else if code ≤ 7 then 8
  else if code ≤ 9 then 0
  else if code % 2 = 0 then (code - 12) / 2
  else (code - 13) / 2

/-- Spec-side description of `find_table` (§4.4): among the decoded catalog
records, in on-disk cell order, the first whose type is the table type and
whose stored name equals the argument exactly. -/
def findTableSpec (records : List SchemaMasterRecord) (table_name : List Nat) :
    Option SchemaMasterRecord :=
  records.find? fun r => r.type_ = tableTypeBytes ∧ r.name = table_name

/-- One catalog cell decoded to its schema record: `LeafTableCell::parse`
followed by `SchemaMasterRecord::from_cell` — the per-cell body of the
`find_table` scan. -/
def decodeSchemaCell (buffer : List Nat) (cell_offset : Nat) :
    Except Err SchemaMasterRecord :=
  match LeafTableCell.parse buffer cell_offset with
  | .error e => .error e
  | .ok cell => SchemaMasterRecord.from_cell buffer cell

/-! ## Concrete database fixtures

Small hand-assembled pages used by the witnesses and counterexamples.
`catalogBuf` is a page-1 buffer (the 100-byte database header already
stripped) holding one `sqlite_schema` row
`(type, name, tbl_name, rootpage, sql)` for a table whose
name is the six bytes of `apples` and whose root page is 2. -/

/-- UTF-8 bytes of the table name `apples`. -/
def applesBytes : List Nat := [97, 112, 112, 108, 101, 115]

/-- Page-1 buffer: leaf-table header, 1 cell, on-disk cell pointer 133
(adjusted to 33 by `RootPage::init`), and at offset 33 the cell
`[payload=25, rowid=1, header=[6, 23,25,25,1,15], "table", "apples",
"apples", 2, "x"]`. -/
def catalogBuf : List Nat :=
  [13, 0, 0, 0, 1, 0, 133, 0, 0, 133,
   0, 0, 0, 0, 0, 0, 0, 0, 0, 0,
   0, 0, 0, 0, 0, 0, 0, 0, 0, 0,
   0, 0, 0,
   25, 1, 6, 23, 25, 25, 1, 15,
   116, 97, 98, 108, 101,
   97, 112, 112, 108, 101, 115,
   97, 112, 112, 108, 101, 115,
   2, 120]

/-- The schema record stored in `catalogBuf`. -/
def applesRecord : SchemaMasterRecord :=
  { type_ := tableTypeBytes
    name := applesBytes
    tbl_name := applesBytes
    rootpage := 2
    sql := [120] }

/-- The `RootPage` that `RootPage::init catalogBuf` constructs. -/
def catalogRoot : RootPage :=
  { first_freeblock := 0
    cell_count := 1
    cell_content_start := 133
    fragmented_bytes := 0
    cell_pointers := [33]
    buffer := catalogBuf }

/-- Root page 2 of the two-row fixture: a 16-byte leaf-table page with
`cell_count = 2` (its cells are never decoded by the count plan). -/
def leafPage2 : List Nat :=
  [13, 0, 0, 0, 2, 0, 16, 0, 0, 14, 0, 12, 0, 0, 0, 0]

/-- Root page 2 of the interior-root fixture: a 16-byte buffer whose first
byte is the interior-table tag 0x05 (12-byte header, rightmost pointer 3,
one cell pointer). -/
def interiorPage2 : List Nat :=
  [5, 0, 0, 0, 1, 0, 16, 0, 0, 0, 0, 3, 0, 14, 0, 0]

/-- Session fixture with `page_size = 16`: page 1 is unused filler, page 2
is the two-row leaf page, and the schema catalog is `catalogRoot`. -/
def dbLeaf : SqliteModel :=
  { page_size := 16
    file := List.replicate 16 0 ++ leafPage2
    schema_page := catalogRoot }

/-- Session fixture identical to `dbLeaf` except that the root page of the
table is the interior-table page `interiorPage2`. -/
def dbInterior : SqliteModel :=
  { page_size := 16
    file := List.replicate 16 0 ++ interiorPage2
    schema_page := catalogRoot }

/-- A standalone leaf-table page with two rows
`(id = 1, name = the bytes of red)` and `(id = 2, name = the bytes of
green)`: header + pointers at 0..11, cell 1 at 12, cell 2 at 21. -/
def projPage : List Nat :=
  [13, 0, 0, 0, 2, 0, 12, 0, 0, 12, 0, 21,
   7, 1, 3, 1, 19, 1, 114, 101, 100,
   9, 2, 3, 1, 23, 2, 103, 114, 101, 101, 110]

/-- The parsed form of `projPage`. -/
def projLeaf : LeafTablePage :=
  { first_freeblock := 0
    cell_count := 2
    cell_content_start := 12
    fragmented_bytes := 0
    cell_pointers := [12, 21] }

/-- Column definitions of the fixture table: `id INTEGER` at position 0
(primary key) and `name TEXT` at position 1. -/
def idColumn : ColumnDefinition :=
  { name := [105, 100], sql_type := .Integer, position := 0, is_primary_key := true }

/-- See `idColumn`. -/
def nameColumn : ColumnDefinition :=
  { name := [110, 97, 109, 101], sql_type := .Text, position := 1, is_primary_key := false }

/-- A standalone leaf-table page with one row whose single column is a
1-byte TEXT value holding the invalid UTF-8 byte 0xFF. -/
def badUtf8Page : List Nat :=
  [13, 0, 0, 0, 1, 0, 12, 0, 0, 10,
   3, 1, 2, 15, 255]

/-- A malformed catalog page: leaf-table header, 1 cell, on-disk cell
pointer 112 (adjusted to 12), but offset 12 is the end of the buffer, so
decoding the cell's payload varint fails on an empty slice. -/
def malformedCatalogBuf : List Nat :=
  [13, 0, 0, 0, 1, 0, 12, 0, 0, 112, 0, 0]

/-- The `RootPage` that `RootPage::init malformedCatalogBuf` constructs. -/
def malformedCatalogRoot : RootPage :=
  { first_freeblock := 0
    cell_count := 1
    cell_content_start := 12
    fragmented_bytes := 0
    cell_pointers := [12]
    buffer := malformedCatalogBuf }

/-- A page-1 buffer whose single on-disk cell pointer is 40, i.e. smaller
than the 100-byte database header (saturating adjustment yields 0). -/
def lowPointerBuf : List Nat :=
  [13, 0, 0, 0, 1, 0, 12, 0, 0, 40, 0, 0]

/-! ## Claim C2: serial-type totality and the width table -/

/-- **C2.** For every u64 code except 10 and 11,
`ColumnType::from_serial_type` succeeds and the returned type's
`data_size()` equals the documented width table of spec §4.2; for codes 10
and 11 it always fails with the reserved-serial-type error. -/
theorem C2_serial_type_table (code : Nat) (hcode : code < 2 ^ 64) :
    (code ≠ 10 → code ≠ 11 →
      ∃ t, ColumnType.from_serial_type code = .ok t ∧
        t.data_size = specSerialWidth code) ∧
    ColumnType.from_serial_type 10 = .error .reservedSerialType ∧
    ColumnType.from_serial_type 11 = .error .reservedSerialType := by
  refine ⟨?_, by decide, by decide⟩
  intro h10 h11
  by_cases hsmall : code < 14
  · interval_cases code <;>
      first
        | exact absurd rfl h10
        | exact absurd rfl h11
        | exact ⟨_, rfl, rfl⟩
  · rcases Nat.even_or_odd code with he | ho
    · have h2 : code % 2 = 0 := Nat.even_iff.mp he
      refine ⟨.Blob ((code - 12) / 2), ?_, ?_⟩
      · unfold ColumnType.from_serial_type
        rw [if_neg (show code ≠ 0 by omega), if_neg (show code ≠ 1 by omega),
            if_neg (show code ≠ 2 by omega), if_neg (show code ≠ 3 by omega),
            if_neg (show code ≠ 4 by omega), if_neg (show code ≠ 5 by omega),
            if_neg (show code ≠ 6 by omega), if_neg (show code ≠ 7 by omega),
            if_neg (show code ≠ 8 by omega), if_neg (show code ≠ 9 by omega),
            if_neg (show ¬(code = 10 ∨ code = 11) by omega),
            if_pos (show 12 ≤ code ∧ code % 2 = 0 from ⟨by omega, h2⟩)]
      · unfold specSerialWidth ColumnType.data_size
        rw [if_neg (show code ≠ 0 by omega), if_neg (show ¬code ≤ 4 by omega),
            if_neg (show code ≠ 5 by omega), if_neg (show ¬code ≤ 7 by omega),
            if_neg (show ¬code ≤ 9 by omega),
            if_pos (show code % 2 = 0 from h2)]
    · have h2 : code % 2 = 1 := Nat.odd_iff.mp ho
      refine ⟨.Text ((code - 13) / 2), ?_, ?_⟩
      · unfold ColumnType.from_serial_type
        rw [if_neg (show code ≠ 0 by omega), if_neg (show code ≠ 1 by omega),
            if_neg (show code ≠ 2 by omega), if_neg (show code ≠ 3 by omega),
            if_neg (show code ≠ 4 by omega), if_neg (show code ≠ 5 by omega),
            if_neg (show code ≠ 6 by omega), if_neg (show code ≠ 7 by omega),
            if_neg (show code ≠ 8 by omega), if_neg (show code ≠ 9 by omega),
            if_neg (show ¬(code = 10 ∨ code = 11) by omega),
            if_neg (show ¬(12 ≤ code ∧ code % 2 = 0) by omega),
            if_pos (show 13 ≤ code ∧ code % 2 = 1 from ⟨by omega, h2⟩)]
      · unfold specSerialWidth ColumnType.data_size
        rw [if_neg (show code ≠ 0 by omega), if_neg (show ¬code ≤ 4 by omega),
            if_neg (show code ≠ 5 by omega), if_neg (show ¬code ≤ 7 by omega),
            if_neg (show ¬code ≤ 9 by omega),
            if_neg (show ¬code % 2 = 0 by omega)]

/-- Witness for C2 at the serial-type code 17 (a 2-byte TEXT column). -/
theorem C2_witness :
    ∃ t, ColumnType.from_serial_type 17 = .ok t ∧
      t.data_size = specSerialWidth 17 :=
  (C2_serial_type_table 17 (by norm_num)).1 (by decide) (by decide)

/-! ## Claim C9: the RootPage construction invariant -/

/-- **C9.** `RootPage::init` succeeds only when the page-1 buffer parses as
a leaf-table B-tree page with no rightmost pointer and with
`cell_content_start ≥ 8 + 2 * cell_count`; consequently every constructed
`RootPage` satisfies that predicate (so `table_count`, `table_names` and
`find_table` always run on a state satisfying it). -/
theorem C9_root_page_invariant (buffer : List Nat) (rp : RootPage)
    (h : RootPage.init buffer = .ok rp) :
    ∃ header, BTreePageHeader.parse buffer = .ok header ∧
      header.page_type = .LeafTable ∧
      header.rightmost_pointer = none ∧
      8 + 2 * header.cell_count ≤ header.cell_content_start ∧
      8 + 2 * rp.cell_count ≤ rp.cell_content_start := by
  unfold RootPage.init at h
  split at h
  · cases h
  · rename_i header hh
    split_ifs at h with h1 h2 h3
    cases h
    refine ⟨header, hh, by simpa using h1, by simpa using h2, by omega, by simp; omega⟩

/-- Witness for C9 at the concrete catalog fixture. -/
theorem C9_witness :
    ∃ header, BTreePageHeader.parse catalogBuf = .ok header ∧
      header.page_type = .LeafTable ∧
      header.rightmost_pointer = none ∧
      8 + 2 * header.cell_count ≤ header.cell_content_start ∧
      8 + 2 * catalogRoot.cell_count ≤ catalogRoot.cell_content_start :=
  C9_root_page_invariant catalogBuf catalogRoot (by decide)

/-! ## Claim C10: saturating adjustment of catalog cell pointers -/

/-- **C10.** In `RootPage::init`, every on-disk catalog cell pointer `p` is
adjusted to `max (p - 100) 0` by saturating subtraction of the 100-byte
database-header length: a pointer not exceeding 100 silently becomes offset
0 (no error is produced for pointers inside the header area). -/
theorem C10_saturating_cell_pointers (buffer : List Nat) (rp : RootPage)
    (header : BTreePageHeader)
    (hinit : RootPage.init buffer = .ok rp)
    (hparse : BTreePageHeader.parse buffer = .ok header) :
    rp.cell_pointers = header.cell_pointers.map
      (fun p => if p ≤ 100 then 0 else p - 100) := by
  unfold RootPage.init at hinit
  split at hinit
  · cases hinit
  · rename_i header' hh
    rw [hparse] at hh
    injection hh with hh
    subst hh
    split_ifs at hinit with h1 h2 h3
    cases hinit
    have hfun : (fun offset => offset - DATABASE_HEADER_SIZE) =
        (fun p : Nat => if p ≤ 100 then 0 else p - 100) := by
      funext p
      unfold DATABASE_HEADER_SIZE
      split_ifs <;> omega
    dsimp only
    rw [hfun]

/-- The `RootPage` that `RootPage::init lowPointerBuf` constructs: its
on-disk pointer 40 has been adjusted to 0. -/
def lowPointerRoot : RootPage :=
  { first_freeblock := 0
    cell_count := 1
    cell_content_start := 12
    fragmented_bytes := 0
    cell_pointers := [0]
    buffer := lowPointerBuf }

/-- The parsed header of `lowPointerBuf`, with raw cell pointer 40. -/
def lowPointerHeader : BTreePageHeader :=
  { page_type := .LeafTable
    first_freeblock := 0
    cell_count := 1
    cell_content_start := 12
    fragmented_bytes := 0
    rightmost_pointer := none
    cell_pointers := [40] }

/-- Witness for C10 at the fixture whose on-disk pointer 40 is below the
100-byte header length. -/
theorem C10_witness :
    lowPointerRoot.cell_pointers = lowPointerHeader.cell_pointers.map
      (fun p => if p ≤ 100 then 0 else p - 100) :=
  C10_saturating_cell_pointers lowPointerBuf lowPointerRoot lowPointerHeader
    (by decide) (by decide)

/-! ## Claim C7: the pager read contract -/

/-- **C7 counterexample.** At `page_size = 65536`, `page_number = 1600` the
product is exactly the 100 MiB ceiling — it does not exceed it — and the
buffer length matches the page size;
the claim therefore promises that the read proceeds past the sanity guard,
but `Pager::read` fails on its `debug_assert!` guard (which requires the
product to be strictly below the ceiling) — the returned error is the
guard's, not a file-related one. -/
theorem C7_counterexample :
    ¬ PAGE_LIMIT < 65536 * 1600 ∧
    Pager.read 65536 [] 1600 65536 = .error .debugAssertPageOutOfBounds := by
  refine ⟨by norm_num [PAGE_LIMIT], ?_⟩
  unfold Pager.read
  norm_num [PAGE_LIMIT]

/-- **C7 (amended).** `Pager::read` fails on the debug assertion whenever
`page_number * page_size` reaches **or** exceeds the 100 MiB ceiling (the
guard runs first, in debug builds); below the ceiling it fails whenever
`out_buffer.len() != page_size`; otherwise it reads exactly `page_size`
bytes starting at file offset `(page_number - 1) * page_size`, failing
with the unexpected-end-of-file error when the file is too short. -/
theorem C7_pager_read (page_size : Nat) (file : List Nat)
    (page_number buf_len : Nat) (hpn : 1 ≤ page_number) :
    (PAGE_LIMIT ≤ page_size * page_number →
      Pager.read page_size file page_number buf_len =
        .error .debugAssertPageOutOfBounds) ∧
    (page_size * page_number < PAGE_LIMIT → buf_len ≠ page_size →
      Pager.read page_size file page_number buf_len =
        .error .bufferSizeMismatch) ∧
    (page_size * page_number < PAGE_LIMIT → buf_len = page_size →
      file.length < (page_number - 1) * page_size + page_size →
      Pager.read page_size file page_number buf_len =
        .error .unexpectedEndOfFile) ∧
    (page_size * page_number < PAGE_LIMIT → buf_len = page_size →
      (page_number - 1) * page_size + page_size ≤ file.length →
      ∃ out, Pager.read page_size file page_number buf_len = .ok out ∧
        out.length = page_size ∧
        ∀ j < page_size,
          out.getD j 0 = file.getD ((page_number - 1) * page_size + j) 0) := by
  refine ⟨?_, ?_, ?_, ?_⟩
  · intro hge
    unfold Pager.read
    rw [if_pos (by omega)]
  · intro hlt hne
    unfold Pager.read
    rw [if_neg (by omega), if_pos hne]
  · intro hlt heq hshort
    unfold Pager.read
    rw [if_neg (by omega), if_neg (by omega)]
    simp only
    rw [if_pos (by omega)]
  · intro hlt heq hlong
    unfold Pager.read
    rw [if_neg (by omega), if_neg (by omega)]
    simp only
    rw [if_neg (by omega)]
    refine ⟨_, rfl, ?_, ?_⟩
    · rw [List.length_take, List.length_drop]
      omega
    · intro j hj
      rw [List.getD_eq_getElem?_getD, List.getD_eq_getElem?_getD,
          List.getElem?_take_of_lt hj, List.getElem?_drop]

/-- Witness for C7's amended read contract: a successful in-bounds read of
page 2 from an 8-byte file with `page_size = 4`. -/
theorem C7_witness :
    ∃ out, Pager.read 4 [10, 11, 12, 13, 14, 15, 16, 17] 2 4 = .ok out ∧
      out.length = 4 ∧
      ∀ j < 4, out.getD j 0 = [10, 11, 12, 13, 14, 15, 16, 17].getD ((2 - 1) * 4 + j) 0 :=
  (C7_pager_read 4 [10, 11, 12, 13, 14, 15, 16, 17] 2 4 (by norm_num)).2.2.2
    (by norm_num [PAGE_LIMIT]) rfl (by norm_num)

/-! ## Claim C8: record-header parsing and the absent inconsistency check -/

/-- `readVarintLoop` fails only with the incomplete or too-long varint
errors — never with the record-header-inconsistent kind. -/
theorem readVarintLoop_error_ne (l : List Nat) :
    ∀ i r e, readVarintLoop l i r = .error e → e ≠ .recordHeaderInconsistent := by
  induction l with
  | nil =>
    intro i r e h hrh
    subst hrh
    unfold readVarintLoop at h
    simp at h
  | cons b rest ih =>
    intro i r e h hrh
    subst hrh
    unfold readVarintLoop at h
    split_ifs at h with h9 h8 hc <;>
      first
        | exact ih _ _ _ h rfl
        | simp at h

/-- `read_varint` never fails with the record-header-inconsistent error. -/
theorem read_varint_error_ne (l : List Nat) (e : Err)
    (h : read_varint l = .error e) : e ≠ .recordHeaderInconsistent := by
  intro hrh
  subst hrh
  unfold read_varint at h
  split_ifs at h with hemp
  · simp at h
  · exact readVarintLoop_error_ne l 0 0 _ h rfl

/-- `ColumnType::from_serial_type` never fails with the
record-header-inconsistent error. -/
theorem from_serial_type_error_ne (code : Nat) (e : Err)
    (h : ColumnType.from_serial_type code = .error e) :
    e ≠ .recordHeaderInconsistent := by
  intro hrh
  subst hrh
  by_cases hsmall : code < 14
  · interval_cases code <;> exact absurd h (by decide)
  · rcases Nat.even_or_odd code with hpar | hpar
    · have h2 : code % 2 = 0 := Nat.even_iff.mp hpar
      unfold ColumnType.from_serial_type at h
      rw [if_neg (show code ≠ 0 by omega), if_neg (show code ≠ 1 by omega),
          if_neg (show code ≠ 2 by omega), if_neg (show code ≠ 3 by omega),
          if_neg (show code ≠ 4 by omega), if_neg (show code ≠ 5 by omega),
          if_neg (show code ≠ 6 by omega), if_neg (show code ≠ 7 by omega),
          if_neg (show code ≠ 8 by omega), if_neg (show code ≠ 9 by omega),
          if_neg (show ¬(code = 10 ∨ code = 11) by omega),
          if_pos (show 12 ≤ code ∧ code % 2 = 0 from ⟨by omega, h2⟩)] at h
      cases h
    · have h2 : code % 2 = 1 := Nat.odd_iff.mp hpar
      unfold ColumnType.from_serial_type at h
      rw [if_neg (show code ≠ 0 by omega), if_neg (show code ≠ 1 by omega),
          if_neg (show code ≠ 2 by omega), if_neg (show code ≠ 3 by omega),
          if_neg (show code ≠ 4 by omega), if_neg (show code ≠ 5 by omega),
          if_neg (show code ≠ 6 by omega), if_neg (show code ≠ 7 by omega),
          if_neg (show code ≠ 8 by omega), if_neg (show code ≠ 9 by omega),
          if_neg (show ¬(code = 10 ∨ code = 11) by omega),
          if_neg (show ¬(12 ≤ code ∧ code % 2 = 0) by omega),
          if_pos (show 13 ≤ code ∧ code % 2 = 1 from ⟨by omega, h2⟩)] at h
      cases h

/-- The serial-type loop never fails with the record-header-inconsistent
error. -/
theorem parseSerialTypes_error_ne (buffer : List Nat) (header_end : Nat) :
    ∀ fuel offset e, parseSerialTypes buffer header_end fuel offset = .error e →
      e ≠ .recordHeaderInconsistent := by
  intro fuel
  induction fuel with
  | zero =>
    intro offset e h hrh
    subst hrh
    unfold parseSerialTypes at h
    split_ifs at h <;> simp at h
  | succ fuel ih =>
    intro offset e h hrh
    subst hrh
    unfold parseSerialTypes at h
    split_ifs at h with hlt hbuf
    · simp at h
    · split at h
      · rename_i e' hrv
        injection h with h
        exact read_varint_error_ne _ _ hrv h
      · split at h
        · rename_i e' hst
          injection h with h
          exact from_serial_type_error_ne _ _ hst h
        · split at h
          · rename_i e' hrec
            injection h with h
            exact ih _ _ hrec h
          · simp at h

/-- **C8 counterexample.** On the record `[2, 129, 0]` with
`record_start = 0`, the header size is 2 but the single serial-type varint
`[129, 0]` consumes two bytes, overshooting the boundary (offset 3 > 2) —
yet `RecordHeader::parse` succeeds (one Blob column, `data_start_offset`
still 2) instead of failing with a record-header-inconsistent error. -/
theorem C8_counterexample :
    RecordHeader.parse [2, 129, 0] 0 = .ok ⟨[.Blob 58], 2⟩ ∧
    read_varint ([2, 129, 0].drop 1) = .ok (128, 2) ∧
    0 + 2 < 1 + 2 := by
  refine ⟨by decide, by decide, by norm_num⟩

/-- **C8 (amended).** `RecordHeader::parse(buffer, record_start)` reads a
leading varint `header_size` counted from `record_start` inclusive, appends
one decoded column type per serial-type varint while the running offset is
strictly below `record_start + header_size`, and sets `data_start_offset`
to exactly that boundary; when the serial-type varints do not land cleanly
on the boundary (boundary overshot) no error is raised — in particular no
code path of the parser ever produces the record-header-inconsistent error
kind announced by the spec's error taxonomy. -/
theorem C8_record_header (buffer : List Nat) (record_start : Nat) :
    (∀ rh, RecordHeader.parse buffer record_start = .ok rh →
      ∃ header_size bytes_consumed,
        read_varint (buffer.drop record_start) = .ok (header_size, bytes_consumed) ∧
        rh.data_start_offset = record_start + header_size) ∧
    (∀ e, RecordHeader.parse buffer record_start = .error e →
      e ≠ .recordHeaderInconsistent) := by
  constructor
  · intro rh h
    unfold RecordHeader.parse at h
    split_ifs at h with hoob
    split at h
    · cases h
    · rename_i header_size bytes_consumed hrv
      split at h
      · cases h
      · rename_i cols hps
        injection h with h
        subst h
        exact ⟨header_size, bytes_consumed, hrv, rfl⟩
  · intro e h hrh
    subst hrh
    unfold RecordHeader.parse at h
    split_ifs at h with hoob
    · simp at h
    · split at h
      · rename_i e' hrv
        injection h with h
        exact read_varint_error_ne _ _ hrv h
      · rename_i header_size bytes_consumed hrv
        split at h
        · rename_i e' hps
          injection h with h
          exact parseSerialTypes_error_ne _ _ _ _ _ hps h
        · simp at h

/-- Witness for C8's amended statement at the overshooting record
`[2, 129, 0]`. -/
theorem C8_witness :
    ∃ header_size bytes_consumed,
      read_varint ([2, 129, 0].drop 0) = .ok (header_size, bytes_consumed) ∧
      (⟨[.Blob 58], 2⟩ : RecordHeader).data_start_offset = 0 + header_size :=
  (C8_record_header [2, 129, 0] 0).1 ⟨[.Blob 58], 2⟩ (by decide)

/-! ## Claim C3: page dispatch -/

/-- **C3 counterexample.** The 8-byte buffer starting with the leaf-index
tag 0x0a does not parse as the LeafIndex variant: `LeafIndexPage::parse` is
`todo!()`, so `BTreePage::parse` panics instead of returning the matching
variant. -/
theorem C3_counterexample :
    8 ≤ [0x0a, 0, 0, 0, 0, 0, 0, 0].length ∧
    BTreePage.parse [0x0a, 0, 0, 0, 0, 0, 0, 0] = .error .panicTodo := by
  exact ⟨by decide, by decide⟩

/-- When every 2-byte cell-pointer slot is in bounds, the extraction loop
succeeds. -/
theorem readCellPointers_ok (buffer : List Nat) (header_size : Nat) :
    ∀ count i, (∀ j, j < count → header_size + (i + j) * 2 + 1 < buffer.length) →
      ∃ ps, readCellPointers buffer header_size i count = .ok ps := by
  intro count
  induction count with
  | zero => exact fun i _ => ⟨[], rfl⟩
  | succ count ih =>
    intro i hb
    obtain ⟨ps, hps⟩ := ih (i + 1) (fun j hj => by
      have := hb (j + 1) (by omega)
      omega)
    refine ⟨(buffer.getD (header_size + i * 2) 0 * 256 +
        buffer.getD (header_size + i * 2 + 1) 0) :: ps, ?_⟩
    unfold readCellPointers
    rw [if_neg (by have := hb 0 (by omega); omega), hps]

/-- When some 2-byte cell-pointer slot is out of bounds, the extraction
loop fails with the cell-pointer-out-of-bounds error. -/
theorem readCellPointers_err (buffer : List Nat) (header_size : Nat) :
    ∀ count i, (∃ j, j < count ∧ buffer.length ≤ header_size + (i + j) * 2 + 1) →
      readCellPointers buffer header_size i count = .error .cellPointerOutOfBounds := by
  intro count
  induction count with
  | zero => rintro i ⟨j, hj, _⟩; omega
  | succ count ih =>
    rintro i ⟨j, hj, hb⟩
    by_cases h0 : buffer.length ≤ header_size + i * 2 + 1
    · unfold readCellPointers
      rw [if_pos h0]
    · have hj0 : j ≠ 0 := fun h => by subst h; omega
      have := ih (i + 1) ⟨j - 1, by omega, by
        have : i + 1 + (j - 1) = i + j := by omega
        rw [this]
        exact hb⟩
      unfold readCellPointers
      rw [if_neg h0, this]

/-- On a first byte 0x0d, `BTreePage::parse` delegates to
`LeafTablePage::parse`. -/
theorem btreeParse_leaf (buffer : List Nat) (h8 : 8 ≤ buffer.length)
    (h13 : buffer.getD 0 0 = 13) :
    BTreePage.parse buffer = (LeafTablePage.parse buffer).map .LeafTable := by
  unfold BTreePage.parse
  rw [if_neg (by omega), h13]
  rfl

/-- On a first byte 0x0d, `BTreePageHeader::parse` reduces to the leaf
header with the cell-pointer extraction loop. -/
theorem btreeHeader_leaf (buffer : List Nat) (h8 : 8 ≤ buffer.length)
    (h13 : buffer.getD 0 0 = 13) :
    BTreePageHeader.parse buffer =
      match readCellPointers buffer 8 0 (buffer.getD 3 0 * 256 + buffer.getD 4 0) with
      | .error e => .error e
      | .ok cell_pointers =>
        .ok ⟨.LeafTable, buffer.getD 1 0 * 256 + buffer.getD 2 0,
             buffer.getD 3 0 * 256 + buffer.getD 4 0,
             buffer.getD 5 0 * 256 + buffer.getD 6 0,
             buffer.getD 7 0, none, cell_pointers⟩ := by
  unfold BTreePageHeader.parse
  rw [if_neg (by omega), h13]
  rfl

/-- **C3 (amended).** For every buffer of length ≥ 8, `BTreePage::parse`
dispatches on the first byte: 0x0d yields the LeafTable variant when every
2-byte cell-pointer slot fits inside the buffer and fails with the
cell-pointer-out-of-bounds error otherwise; the tags 0x0a (LeafIndex),
0x05 (InteriorTable) and 0x02 (InteriorIndex) reach parsers that are
`todo!()` and panic instead of returning the matching variant; every other
first byte fails with the invalid-page-type error. -/
theorem C3_page_dispatch (buffer : List Nat) (h8 : 8 ≤ buffer.length) :
    (buffer.getD 0 0 = 0x0d →
      (buffer.getD 3 0 * 256 + buffer.getD 4 0 = 0 ∨
          (buffer.getD 3 0 * 256 + buffer.getD 4 0) * 2 + 7 < buffer.length →
        ∃ p, BTreePage.parse buffer = .ok (.LeafTable p)) ∧
      (¬ (buffer.getD 3 0 * 256 + buffer.getD 4 0 = 0 ∨
          (buffer.getD 3 0 * 256 + buffer.getD 4 0) * 2 + 7 < buffer.length) →
        BTreePage.parse buffer = .error .cellPointerOutOfBounds)) ∧
    (buffer.getD 0 0 = 0x0a ∨ buffer.getD 0 0 = 0x05 ∨ buffer.getD 0 0 = 0x02 →
      BTreePage.parse buffer = .error .panicTodo) ∧
    (buffer.getD 0 0 ≠ 0x0d → buffer.getD 0 0 ≠ 0x0a →
     buffer.getD 0 0 ≠ 0x05 → buffer.getD 0 0 ≠ 0x02 →
      BTreePage.parse buffer = .error (.invalidPageType (buffer.getD 0 0))) := by
  refine ⟨?_, ?_, ?_⟩
  · intro h13
    constructor
    · intro hcells
      rw [btreeParse_leaf buffer h8 h13]
      unfold LeafTablePage.parse
      obtain ⟨ps, hps⟩ := readCellPointers_ok buffer 8
        (buffer.getD 3 0 * 256 + buffer.getD 4 0) 0 (fun j hj => by omega)
      rw [btreeHeader_leaf buffer h8 h13, hps]
      exact ⟨_, rfl⟩
    · intro hcells
      rw [btreeParse_leaf buffer h8 h13]
      unfold LeafTablePage.parse
      have herr := readCellPointers_err buffer 8
        (buffer.getD 3 0 * 256 + buffer.getD 4 0) 0
        ⟨(buffer.getD 3 0 * 256 + buffer.getD 4 0) - 1, by omega, by omega⟩
      rw [btreeHeader_leaf buffer h8 h13, herr]
      rfl
  · rintro (h | h | h) <;>
      · unfold BTreePage.parse
        rw [if_neg (by omega), h]
        rfl
  · intro ha hb hc hd
    unfold BTreePage.parse PageType.from_byte
    rw [if_neg (by omega), if_neg hb, if_neg ha, if_neg hd, if_neg hc]

/-- Witness for C3's amended dispatch at a concrete pointer-free leaf
page. -/
theorem C3_witness :
    ∃ p, BTreePage.parse [13, 0, 0, 0, 0, 0, 12, 0] = .ok (.LeafTable p) :=
  ((C3_page_dispatch [13, 0, 0, 0, 0, 0, 12, 0] (by decide)).1 (by decide)).1
    (by decide)

/-! ## Claim C1: the varint round-trip -/

/-- Base-128 big-endian digits of `x` (empty for 0): the payload bits of
the reference encoder's continuation bytes. -/
def digits128 (x : Nat) : List Nat :=
  if h : x = 0 then []
  else digits128 (x / 128) ++ [x % 128]
termination_by x
decreasing_by exact Nat.div_lt_self (Nat.pos_of_ne_zero h) (by omega)

/-- Big-endian base-128 accumulation, the arithmetic content of the
decoder's 7-bit steps. -/
def foldDigits (acc : Nat) (ds : List Nat) : Nat :=
  ds.foldl (fun a d => a * 128 + d) acc

theorem foldDigits_nil (acc : Nat) : foldDigits acc [] = acc := rfl

theorem foldDigits_cons (acc d : Nat) (ds : List Nat) :
    foldDigits acc (d :: ds) = foldDigits (acc * 128 + d) ds := rfl

theorem foldDigits_le (ds : List Nat) : ∀ acc, acc ≤ foldDigits acc ds := by
  induction ds with
  | nil => intro acc; exact Nat.le_refl acc
  | cons d ds ih =>
    intro acc
    rw [foldDigits_cons]
    exact le_trans (by omega) (ih (acc * 128 + d))

/-- The continuation bytes are exactly the digits with the high bit set. -/
theorem enc7cont_eq_map (x : Nat) :
    enc7cont x = (digits128 x).map (· + 128) := by
  induction x using Nat.strong_induction_on with
  | _ x ih =>
    by_cases h0 : x = 0
    · subst h0
      rw [enc7cont, digits128]
      simp
    · rw [enc7cont, digits128, dif_neg h0, dif_neg h0, List.map_append,
        ih (x / 128) (Nat.div_lt_self (Nat.pos_of_ne_zero h0) (by omega))]
      rfl

theorem digits128_lt (x : Nat) : ∀ d ∈ digits128 x, d < 128 := by
  induction x using Nat.strong_induction_on with
  | _ x ih =>
    by_cases h0 : x = 0
    · subst h0
      rw [digits128]
      simp
    · rw [digits128, dif_neg h0]
      intro d hd
      rcases List.mem_append.mp hd with hd | hd
      · exact ih (x / 128) (Nat.div_lt_self (Nat.pos_of_ne_zero h0) (by omega)) d hd
      · rw [List.mem_singleton.mp hd]
        omega

theorem foldDigits_digits128 (x : Nat) :
    ∀ acc, foldDigits acc (digits128 x) =
      acc * 128 ^ (digits128 x).length + x := by
  induction x using Nat.strong_induction_on with
  | _ x ih =>
    intro acc
    by_cases h0 : x = 0
    · subst h0
      rw [digits128]
      simp [foldDigits]
    · rw [digits128, dif_neg h0]
      unfold foldDigits
      rw [List.foldl_append]
      have ihx := ih (x / 128) (Nat.div_lt_self (Nat.pos_of_ne_zero h0) (by omega)) acc
      unfold foldDigits at ihx
      rw [ihx]
      simp only [List.foldl, List.length_append, List.length_singleton]
      have hdm : x / 128 * 128 + x % 128 = x := by omega
      have : (acc * 128 ^ (digits128 (x / 128)).length + x / 128) * 128 + x % 128 =
          acc * (128 ^ (digits128 (x / 128)).length * 128) +
            (x / 128 * 128 + x % 128) := by ring
      rw [this, hdm, ← pow_succ]

theorem digits128_length_le (k : Nat) :
    ∀ x, x < 128 ^ k → (digits128 x).length ≤ k := by
  induction k with
  | zero =>
    intro x hx
    have : x = 0 := by simpa using hx
    subst this
    rw [digits128]
    simp
  | succ k ih =>
    intro x hx
    by_cases h0 : x = 0
    · subst h0
      rw [digits128]
      simp
    · rw [digits128, dif_neg h0]
      have : x / 128 < 128 ^ k := by
        rw [Nat.div_lt_iff_lt_mul (by omega)]
        calc x < 128 ^ (k + 1) := hx
        _ = 128 ^ k * 128 := by rw [pow_succ]
      simpa using Nat.succ_le_succ (ih (x / 128) this)

/-- Decoding a chain of continuation bytes followed by a terminal byte
`t < 128`, entirely within the 7-bit regime (indices up to 7): the
accumulator folds in each 7-bit payload and the terminal byte ends the
varint. -/
theorem readVarintLoop_cont (ds : List Nat) :
    ∀ (i acc t : Nat) (rest : List Nat),
      (∀ d ∈ ds, d < 128) → t < 128 →
      i + ds.length + 1 ≤ 8 →
      foldDigits acc ds * 128 + t < 2 ^ 64 →
      readVarintLoop (ds.map (· + 128) ++ t :: rest) i acc =
        .ok (foldDigits acc ds * 128 + t, i + ds.length + 1) := by
  induction ds with
  | nil =>
    intro i acc t rest _ ht hi hbound
    rw [foldDigits_nil] at hbound ⊢
    simp only [List.map_nil, List.nil_append, List.length_nil]
    unfold readVarintLoop
    rw [if_neg (by omega), if_pos (by omega), if_pos (by omega)]
    have h1 : t % 128 = t := by omega
    rw [h1, Nat.mod_eq_of_lt hbound]
  | cons d ds ih =>
    intro i acc t rest hds ht hi hbound
    have hd : d < 128 := hds d (List.mem_cons_self d ds)
    have hmono : acc * 128 + d ≤ foldDigits acc (d :: ds) :=
      foldDigits_cons acc d ds ▸ foldDigits_le ds (acc * 128 + d)
    simp only [List.map_cons, List.cons_append, List.length_cons]
    unfold readVarintLoop
    rw [if_neg (by simp at hi; omega), if_pos (by simp at hi; omega),
        if_neg (by omega)]
    have hpayload : (d + 128) % 128 = d := by omega
    have hacc : (acc * 128 + (d + 128) % 128) % 2 ^ 64 = acc * 128 + d := by
      rw [hpayload]
      exact Nat.mod_eq_of_lt (by
        have := hmono
        omega)
    rw [hacc, ih (i + 1) (acc * 128 + d) t rest
      (fun x hx => hds x (List.mem_cons_of_mem d hx)) ht
      (by simp at hi ⊢; omega)
      (by rw [← foldDigits_cons]; exact hbound)]
    rw [← foldDigits_cons]
    have : i + 1 + ds.length + 1 = i + (ds.length + 1) + 1 := by omega
    rw [this]

/-- Decoding eight continuation bytes that land the index on 8, followed by
the 9th byte, which contributes all 8 of its bits and ends the varint. -/
theorem readVarintLoop_nine (ds : List Nat) :
    ∀ (i acc t : Nat) (rest : List Nat),
      (∀ d ∈ ds, d < 128) →
      i + ds.length = 8 →
      foldDigits acc ds * 256 + t % 256 < 2 ^ 64 →
      readVarintLoop (ds.map (· + 128) ++ t :: rest) i acc =
        .ok (foldDigits acc ds * 256 + t % 256, 9) := by
  induction ds with
  | nil =>
    intro i acc t rest _ hi hbound
    rw [foldDigits_nil] at hbound ⊢
    simp only [List.length_nil] at hi
    simp only [List.map_nil, List.nil_append]
    unfold readVarintLoop
    rw [if_neg (by omega), if_neg (by omega)]
    rw [Nat.mod_eq_of_lt hbound, show i + 1 = 9 from by omega]
  | cons d ds ih =>
    intro i acc t rest hds hi hbound
    have hd : d < 128 := hds d (List.mem_cons_self d ds)
    have hmono : acc * 128 + d ≤ foldDigits acc (d :: ds) :=
      foldDigits_cons acc d ds ▸ foldDigits_le ds (acc * 128 + d)
    simp only [List.map_cons, List.cons_append, List.length_cons] at hi ⊢
    unfold readVarintLoop
    rw [if_neg (by omega), if_pos (by omega), if_neg (by omega)]
    have hpayload : (d + 128) % 128 = d := by omega
    have hacc : (acc * 128 + (d + 128) % 128) % 2 ^ 64 = acc * 128 + d := by
      rw [hpayload]
      exact Nat.mod_eq_of_lt (by
        have := hmono
        omega)
    rw [hacc, ih (i + 1) (acc * 128 + d) t rest
      (fun x hx => hds x (List.mem_cons_of_mem d hx))
      (by omega)
      (by rw [← foldDigits_cons]; exact hbound)]
    rw [← foldDigits_cons]

/-- Folding the eight fixed base-128 digits of `x` (big-endian)
reconstructs `x` modulo `128 ^ k`. -/
theorem foldDigits_range (k : Nat) :
    ∀ x acc, foldDigits acc ((List.range k).map fun j => x / 128 ^ (k - 1 - j) % 128) =
      acc * 128 ^ k + x % 128 ^ k := by
  induction k with
  | zero =>
    intro x acc
    simp [foldDigits, Nat.mod_one]
  | succ k ih =>
    intro x acc
    rw [List.range_succ_eq_map, List.map_cons, List.map_map]
    have hfun : ((fun j => x / 128 ^ (k + 1 - 1 - j) % 128) ∘ Nat.succ) =
        (fun j => x / 128 ^ (k - 1 - j) % 128) := by
      funext j
      have h' : k + 1 - 1 - (j + 1) = k - 1 - j := by omega
      simp only [Function.comp]
      rw [show Nat.succ j = j + 1 from rfl, h']
    rw [hfun, foldDigits_cons, ih x]
    have h1 : k + 1 - 1 - 0 = k := by omega
    rw [h1]
    have h2 : x % 128 ^ (k + 1) = 128 ^ k * (x / 128 ^ k % 128) + x % 128 ^ k := by
      rw [pow_succ, Nat.mod_mul]
      ring
    rw [h2, pow_succ]
    ring

/-- **C1.** For every value `v` in `[0, 2^64 - 1]` and the byte sequence the
reference SQLite varint encoder produces for `v`, `read_varint` applied to
a buffer beginning with that sequence returns exactly
`(v, length of the encoding)`: bytes 0-7 contribute their low 7 bits,
left-shifted 7 per byte with the high bit as continuation flag, and a 9th
byte (if reached) contributes all 8 bits. -/
theorem C1_varint_roundtrip (v : Nat) (rest : List Nat) (hv : v < 2 ^ 64) :
    read_varint (varintEncode v ++ rest) =
      .ok (v, (varintEncode v).length) := by
  by_cases hsmall : v < 2 ^ 56
  · unfold varintEncode
    rw [if_pos hsmall, enc7cont_eq_map, List.append_assoc]
    have hlen : (digits128 (v / 128)).length ≤ 7 := by
      apply digits128_length_le
      have h7 : (128 : Nat) ^ 7 = 2 ^ 49 := by norm_num
      rw [h7]
      have h56 : (2 : Nat) ^ 56 = 2 ^ 49 * 128 := by norm_num
      rw [Nat.div_lt_iff_lt_mul (by omega), ← h56]
      exact hsmall
    have hval : foldDigits 0 (digits128 (v / 128)) = v / 128 := by
      rw [foldDigits_digits128]
      omega
    unfold read_varint
    rw [if_neg (by cases h : (digits128 (v / 128)).map (· + 128) <;> simp [h])]
    rw [show ([v % 128] ++ rest) = v % 128 :: rest from rfl]
    rw [readVarintLoop_cont (digits128 (v / 128)) 0 0 (v % 128) rest
      (digits128_lt (v / 128)) (by omega) (by omega)
      (by rw [hval]; omega)]
    rw [hval]
    simp only [List.length_append, List.length_map, List.length_singleton]
    have : v / 128 * 128 + v % 128 = v := by omega
    rw [this, Nat.zero_add]
  · unfold varintEncode
    rw [if_neg hsmall]
    have hmap : (List.range 8).map (fun j => v / 256 / 128 ^ (7 - j) % 128 + 128) =
        ((List.range 8).map fun j => v / 256 / 128 ^ (7 - j) % 128).map (· + 128) := by
      rw [List.map_map]
      rfl
    rw [hmap, List.append_assoc,
        show ([v % 256] ++ rest) = v % 256 :: rest from rfl]
    have hdiv : v / 256 < 128 ^ 8 := by
      have h8 : (128 : Nat) ^ 8 = 2 ^ 56 := by norm_num
      have h64 : (2 : Nat) ^ 64 = 2 ^ 56 * 256 := by norm_num
      rw [h8, Nat.div_lt_iff_lt_mul (by omega), ← h64]
      exact hv
    have hfold : foldDigits 0 ((List.range 8).map fun j => v / 256 / 128 ^ (7 - j) % 128) =
        v / 256 := by
      have h78 : ∀ j : Nat, 8 - 1 - j = 7 - j := fun j => by omega
      have hsame : ((List.range 8).map fun j => v / 256 / 128 ^ (7 - j) % 128) =
          ((List.range 8).map fun j => v / 256 / 128 ^ (8 - 1 - j) % 128) := by
        apply List.map_congr_left
        intro j _
        rw [h78 j]
      rw [hsame, foldDigits_range 8 (v / 256) 0, Nat.mod_eq_of_lt hdiv]
      omega
    unfold read_varint
    rw [if_neg (by
      cases h : ((List.range 8).map fun j => v / 256 / 128 ^ (7 - j) % 128).map (· + 128) <;>
        simp [h])]
    rw [readVarintLoop_nine ((List.range 8).map fun j => v / 256 / 128 ^ (7 - j) % 128)
      0 0 (v % 256) rest
      (by
        intro d hd
        obtain ⟨j, _, hj⟩ := List.mem_map.mp hd
        omega)
      (by simp)
      (by rw [hfold]; omega)]
    rw [hfold]
    simp only [List.length_append, List.length_map, List.length_range,
      List.length_singleton]
    have : v / 256 * 256 + v % 256 % 256 = v := by omega
    rw [this]

/-- Witness for C1 at `v = 300` (two-byte encoding) with trailing bytes. -/
theorem C1_witness :
    300 < 2 ^ 64 ∧
    read_varint (varintEncode 300 ++ [7, 7]) =
      .ok (300, (varintEncode 300).length) :=
  ⟨by norm_num, C1_varint_roundtrip 300 [7, 7] (by norm_num)⟩

/-! ## Claim C4: the projection plan -/

/-- The leaf page of `badUtf8Page`. -/
def badUtf8Leaf : LeafTablePage :=
  { first_freeblock := 0
    cell_count := 1
    cell_content_start := 12
    fragmented_bytes := 0
    cell_pointers := [10] }

/-- A requested text column at position 0. -/
def textColumn0 : ColumnDefinition :=
  { name := [99], sql_type := .Text, position := 0, is_primary_key := false }

/-- **C4 counterexample.** Selecting the integer column `id` (position 0)
from the two-row fixture table: the claim says integers render as base-10
digits (rows `"1"` and `"2"`), but the executor fails with the
not-a-TEXT-column error — `text_column` only accepts TEXT. -/
theorem C4_counterexample :
    QueryExecutor.execute_projection (.LeafTable projLeaf) projPage [idColumn] =
      .error .notTextColumn ∧
    QueryExecutor.execute_projection (.LeafTable projLeaf) projPage [idColumn] ≠
      .ok { rows := [{ values := [[49]] }, { values := [[50]] }] } := by
  exact ⟨by decide, by decide⟩

/-- `projRows` yields exactly one row per cell pointer. -/
theorem projRows_length (buffer : List Nat)
    (column_definitions : List ColumnDefinition) :
    ∀ ptrs rows, projRows buffer column_definitions ptrs = .ok rows →
      rows.length = ptrs.length := by
  intro ptrs
  induction ptrs with
  | nil =>
    intro rows h
    injection h with h
    subst h
    rfl
  | cons p ps ih =>
    intro rows h
    unfold projRows at h
    split at h
    · cases h
    · split at h
      · cases h
      · split at h
        · cases h
        · rename_i rows' hrec
          injection h with h
          subst h
          simp [ih rows' hrec]

/-- **C4 (amended).** For a table whose root page is a leaf-table page, the
executor returns one row per cell in on-disk cell-pointer order, and each
requested column must be a TEXT column: text values are decoded as UTF-8
(failing with the invalid-UTF-8 error on bad bytes), while every non-text
column type — Integer, Real, Blob, Null and the constants alike — causes
the not-a-TEXT-column failure rather than producing a stringified
value. -/
theorem C4_projection (buffer : List Nat) (cell : LeafTableCell)
    (column_index : Nat) (leaf_page : LeafTablePage)
    (column_definitions : List ColumnDefinition) (res : QueryResult) :
    (column_index < cell.record_header.column_types.length →
      (∀ length, cell.record_header.column_types.getD column_index .Null ≠
        .Text length) →
      cell.text_column buffer column_index = .error .notTextColumn) ∧
    (QueryExecutor.execute_projection (.LeafTable leaf_page) buffer
        column_definitions = .ok res →
      res.rows.length = leaf_page.cell_pointers.length) ∧
    QueryExecutor.execute_projection (.LeafTable projLeaf) projPage [nameColumn] =
      .ok { rows := [{ values := [[114, 101, 100]] },
                     { values := [[103, 114, 101, 101, 110]] }] } ∧
    QueryExecutor.execute_projection (.LeafTable badUtf8Leaf) badUtf8Page
        [textColumn0] = .error .invalidUtf8 := by
  refine ⟨?_, ?_, by decide, by decide⟩
  · intro hlt hty
    unfold LeafTableCell.text_column
    rw [if_neg (by omega)]
    rcases h : cell.record_header.column_types.getD column_index .Null with
      _ | size | _ | _ | _ | length | length
    · rfl
    · rfl
    · rfl
    · rfl
    · rfl
    · exact absurd h (hty length)
    · rfl
  · intro h
    unfold QueryExecutor.execute_projection at h
    split at h
    · rename_i tp lp hlp
      injection hlp with hlp
      subst hlp
      split at h
      · cases h
      · rename_i rows hrows
        injection h with h
        subst h
        exact projRows_length buffer column_definitions _ rows hrows
    · rename_i contra
      exact absurd rfl (contra leaf_page)

/-- Witness for C4: extracting a non-text column as text fails for each
non-text kind — the Integer column of `projPage`'s first cell, and Blob
and Real columns of a synthetic record header. -/
theorem C4_witness :
    LeafTableCell.text_column ⟨⟨[.Integer 1, .Text 3], 17⟩⟩ projPage 0 =
      .error .notTextColumn ∧
    LeafTableCell.text_column ⟨⟨[.Blob 4, .Real], 3⟩⟩ [] 0 =
      .error .notTextColumn ∧
    LeafTableCell.text_column ⟨⟨[.Blob 4, .Real], 3⟩⟩ [] 1 =
      .error .notTextColumn :=
  ⟨(C4_projection projPage ⟨⟨[.Integer 1, .Text 3], 17⟩⟩ 0 projLeaf []
      { rows := [] }).1 (by decide) (by intro length h; cases h),
   (C4_projection [] ⟨⟨[.Blob 4, .Real], 3⟩⟩ 0 projLeaf []
      { rows := [] }).1 (by decide) (by intro length h; cases h),
   (C4_projection [] ⟨⟨[.Blob 4, .Real], 3⟩⟩ 1 projLeaf []
      { rows := [] }).1 (by decide) (by intro length h; cases h)⟩

/-! ## Claim C6: the catalog lookup -/

/-- Decoding every catalog cell in on-disk order, short-circuiting on the
first decode error — the record sequence the `find_table` scan walks. -/
def decodeCatalog (buffer : List Nat) : List Nat → Except Err (List SchemaMasterRecord)
  | [] => .ok []
  | cell_offset :: rest =>
    match decodeSchemaCell buffer cell_offset with
    | .error e => .error e
    | .ok r =>
      match decodeCatalog buffer rest with
      | .error e => .error e
      | .ok rs => .ok (r :: rs)

/-- **C6 counterexample.** A catalog page accepted by `RootPage::init`
whose single cell does not decode (its adjusted pointer lands at the end of
the buffer): no record of any kind exists, so the claim requires
`find_table` to return None — but it propagates the decode error instead. -/
theorem C6_counterexample :
    RootPage.init malformedCatalogBuf = .ok malformedCatalogRoot ∧
    malformedCatalogRoot.find_table applesBytes = .error .emptyVarintBuffer ∧
    malformedCatalogRoot.find_table applesBytes ≠ .ok none := by
  exact ⟨by decide, by decide, by decide⟩

/-- The `find_table` scan agrees with the first-match specification when
every catalog cell decodes. -/
theorem findTableLoop_spec (buffer table_name : List Nat) :
    ∀ ptrs records, decodeCatalog buffer ptrs = .ok records →
      findTableLoop buffer table_name ptrs = .ok (findTableSpec records table_name) := by
  intro ptrs
  induction ptrs with
  | nil =>
    intro records h
    injection h with h
    subst h
    rfl
  | cons p ps ih =>
    intro records h
    unfold decodeCatalog at h
    split at h
    · cases h
    · rename_i r hr
      split at h
      · cases h
      · rename_i rs hrs
        injection h with h
        subst h
        unfold decodeSchemaCell at hr
        have hstep : findTableLoop buffer table_name (p :: ps) =
            match LeafTableCell.parse buffer p with
            | .error e => .error e
            | .ok cell =>
              match SchemaMasterRecord.from_cell buffer cell with
              | .error e => .error e
              | .ok schema_record =>
                if schema_record.type_ = tableTypeBytes ∧ schema_record.name = table_name then
                  .ok (some schema_record)
                else findTableLoop buffer table_name ps := rfl
        rw [hstep]
        split at hr
        · cases hr
        · rename_i cell hcell
          rw [hr]
          show (if r.type_ = tableTypeBytes ∧ r.name = table_name then
              Except.ok (some r) else findTableLoop buffer table_name ps) =
            Except.ok (findTableSpec (r :: rs) table_name)
          by_cases hmatch : r.type_ = tableTypeBytes ∧ r.name = table_name
          · rw [if_pos hmatch]
            simp [findTableSpec, List.find?_cons, hmatch]
          · rw [if_neg hmatch, ih rs hrs]
            simp [findTableSpec, List.find?_cons, hmatch]

/-- **C6 (amended).** For every table name and every catalog page whose
cells all decode successfully, `find_table` scans the cells linearly in
on-disk order and returns the first decoded record whose type is the table
type and whose stored name equals the argument exactly and case-sensitively
(byte equality), and returns None when no such record exists; when a cell
fails to decode before a match is found, the decode error is propagated
instead. -/
theorem C6_find_table (rp : RootPage) (table_name : List Nat)
    (records : List SchemaMasterRecord)
    (hdec : decodeCatalog rp.buffer rp.cell_pointers = .ok records) :
    rp.find_table table_name = .ok (findTableSpec records table_name) :=
  findTableLoop_spec rp.buffer table_name rp.cell_pointers records hdec

/-- Witness for C6 at the one-entry catalog fixture: the scan finds the
record for the six-byte name. -/
theorem C6_witness :
    catalogRoot.find_table applesBytes =
      .ok (findTableSpec [applesRecord] applesBytes) :=
  C6_find_table catalogRoot applesBytes [applesRecord] (by decide)

/-! ## Claim C5: the count plan -/

/-- **C5 counterexample.** A database whose table root page carries the
interior-table tag 0x05 — a table-kind page, for which the claim promises
the scalar cell count — makes the count plan panic while parsing the page
(`InteriorTablePage::parse` is `todo!()`) instead of returning the count. -/
theorem C5_counterexample :
    interiorPage2.getD 0 0 = 0x05 ∧
    QueryExecutor.execute_count dbInterior applesBytes = .error .panicTodo := by
  exact ⟨by decide, by decide⟩

/-- **C5 (amended).** `SELECT COUNT(*) FROM t` resolves `t` via the schema
catalog, failing when `t` is absent; it loads `t`'s root page through the
pager and the page parser, propagating any failure from that step — in
particular an interior-table root panics in the unimplemented
`InteriorTablePage::parse` before any count is taken; when the root page
does parse, a table-kind page yields a single scalar equal to that one
page's cell count, and any other page kind is rejected. -/
theorem C5_count_plan (db : SqliteModel) (table_name : List Nat) :
    (db.schema_page.find_table table_name = .ok none →
      QueryExecutor.execute_count db table_name = .error .tableNotFound) ∧
    (∀ e, db.schema_page.find_table table_name = .error e →
      QueryExecutor.execute_count db table_name = .error e) ∧
    (∀ rec e, db.schema_page.find_table table_name = .ok (some rec) →
      db.load_page (i64ToU64 rec.rootpage) = .error e →
      QueryExecutor.execute_count db table_name = .error e) ∧
    (∀ rec page, db.schema_page.find_table table_name = .ok (some rec) →
      db.load_page (i64ToU64 rec.rootpage) = .ok page →
      (page.is_table_page = true →
        QueryExecutor.execute_count db table_name =
          .ok (QueryResult.count page.cell_count)) ∧
      (page.is_table_page = false →
        QueryExecutor.execute_count db table_name = .error .expectedTablePage)) := by
  refine ⟨?_, ?_, ?_, ?_⟩
  · intro hnone
    unfold QueryExecutor.execute_count
    rw [hnone]
  · intro e he
    unfold QueryExecutor.execute_count
    rw [he]
  · intro rec e hrec hload
    unfold QueryExecutor.execute_count
    rw [hrec]
    show (match db.load_page (i64ToU64 rec.rootpage) with
      | Except.error e => Except.error e
      | Except.ok table_page =>
        if table_page.is_table_page then Except.ok (QueryResult.count table_page.cell_count)
        else Except.error Err.expectedTablePage) = Except.error e
    rw [hload]
  · intro rec page hrec hload
    constructor
    · intro htable
      unfold QueryExecutor.execute_count
      rw [hrec]
      show (match db.load_page (i64ToU64 rec.rootpage) with
        | Except.error e => Except.error e
        | Except.ok table_page =>
          if table_page.is_table_page then Except.ok (QueryResult.count table_page.cell_count)
          else Except.error Err.expectedTablePage) = Except.ok (QueryResult.count page.cell_count)
      rw [hload]
      show (if page.is_table_page then Except.ok (QueryResult.count page.cell_count)
        else Except.error Err.expectedTablePage) = Except.ok (QueryResult.count page.cell_count)
      rw [if_pos htable]
    · intro htable
      unfold QueryExecutor.execute_count
      rw [hrec]
      show (match db.load_page (i64ToU64 rec.rootpage) with
        | Except.error e => Except.error e
        | Except.ok table_page =>
          if table_page.is_table_page then Except.ok (QueryResult.count table_page.cell_count)
          else Except.error Err.expectedTablePage) = Except.error Err.expectedTablePage
      rw [hload]
      show (if page.is_table_page then Except.ok (QueryResult.count page.cell_count)
        else Except.error Err.expectedTablePage) = Except.error Err.expectedTablePage
      rw [if_neg (by rw [htable]; exact Bool.false_ne_true)]

/-- Witness for C5: the end-to-end two-row scenario — on the fixture whose
table root is a single leaf page holding two rows, `SELECT COUNT(*)` yields
the scalar 2. -/
theorem C5_witness :
    QueryExecutor.execute_count dbLeaf applesBytes = .ok (QueryResult.count 2) :=
  ((C5_count_plan dbLeaf applesBytes).2.2.2 applesRecord
    (.LeafTable { first_freeblock := 0, cell_count := 2, cell_content_start := 16,
                  fragmented_bytes := 0, cell_pointers := [14, 12] })
    (by decide) (by decide)).1 (by decide)
